import Mathlib

set_option autoImplicit false

/-!
Shallow embedding of the loom-x cross-chain transfer library:
the chain-qualified address model (src/Address.ts), the secondary-chain
withdrawal-recovery reads and the withdrawal-signature listener
(src/chains/Ethereum.ts `Loom`, src/chains/LoomChain.ts), the
historical log queries (src/chains/Ethereum.ts `Ethereum`), contract
mapping (`Loom.mapContracts`) and the synthetic transaction handles
returned by the Loom-side transfer/approve/withdraw operations.
-/

/-- The all-zero local address value (src/constants ZERO_ADDRESS); it denotes the
native asset (ETH) rather than an ERC20 contract. -/
def ZERO_ADDRESS : Nat := 0

/-- Chain-qualified address (src/Address.ts, extending loom-js `Address`):
a chain id plus a 20-byte local value. The source field is named `local`;
`local` is a Lean keyword, so the field is `localAddr` here. -/
structure Address where
  chainId : String
  localAddr : Nat
deriving DecidableEq, Repr

/-- `Address.createEthereumAddress` (src/Address.ts): wraps a local address with
chain id "eth". -/
def Address.createEthereumAddress (address : Nat) : Address :=
  ⟨"eth", address⟩

/-- `Address.createLoomAddress` (src/Address.ts): wraps a local address with the
current Loom network's name. -/
def Address.createLoomAddress (networkName : String) (address : Nat) : Address :=
  ⟨networkName, address⟩

/-- loom-js `Address.equals`: structural comparison of chain id and local value. -/
def Address.equals (a b : Address) : Bool :=
  a.chainId == b.chainId && a.localAddr == b.localAddr

/-- `Address.isZero` (src/Address.ts). -/
def Address.isZero (a : Address) : Bool :=
  a.localAddr == ZERO_ADDRESS

theorem Address.equals_iff (a b : Address) : a.equals b = true ↔ a = b := by
  cases a; cases b
  simp [Address.equals, Bool.and_eq_true, beq_iff_eq, Address.mk.injEq]

/-- loom-js `TransferGatewayTokenKind` (proto/transfer_gateway_pb), the kinds the
source dispatches on. -/
inductive TransferGatewayTokenKind
  | ETH
  | ERC20
  | ERC721
deriving DecidableEq, Repr

/-- loom-js `IWithdrawalReceipt`, as read by `gateway.withdrawalReceiptAsync`:
the durable secondary-chain withdrawal record. `sig` (the source reads
`receipt.sig`) is the attestor signature bytes, absent until the attestor signs. -/
structure WithdrawalReceipt where
  tokenOwner : Address
  tokenContract : Address
  tokenKind : TransferGatewayTokenKind
  amount : Nat
  withdrawalNonce : Nat
  sig : Option (List Nat)
deriving DecidableEq, Repr

/-- Secondary-chain gateway contract storage, as the two recovery reads see it:
at most one outstanding withdrawal receipt per owner
(`gateway.withdrawalReceiptAsync(owner)`). -/
structure GatewayState where
  withdrawalReceipt : Address → Option WithdrawalReceipt

/-- `Loom.getPendingETHWithdrawalReceipt` (src/chains/Ethereum.ts lines 750-760;
identical in src/chains/LoomChain.ts lines 336-346): read the caller's withdrawal
receipt from the gateway; return it only when it exists, its token kind is ETH and
its `withdrawalNonce` equals the Ethereum-side nonce passed in; return null
otherwise. The source compares the nonces as big numbers
(`toBigNumber(ethereumNonce).eq(toBigNumber(loomNonce))`), embedded as equality
on `Nat`. -/
def getPendingETHWithdrawalReceipt (chain : GatewayState) (mAddress : Address)
    (ethereumNonce : Nat) : Option WithdrawalReceipt :=
  match chain.withdrawalReceipt mAddress with
  | some receipt =>
      if receipt.tokenKind = TransferGatewayTokenKind.ETH then
        let loomNonce := receipt.withdrawalNonce
        if ethereumNonce = loomNonce then some receipt else none
      else none
  | none => none

/-- `Loom.getPendingERC20WithdrawalReceipt` (src/chains/Ethereum.ts lines 768-778;
identical in src/chains/LoomChain.ts lines 354-364): same as the ETH variant with
the token-kind test `receipt.tokenKind === TransferGatewayTokenKind.ERC20`. -/
def getPendingERC20WithdrawalReceipt (chain : GatewayState) (mAddress : Address)
    (ethereumNonce : Nat) : Option WithdrawalReceipt :=
  match chain.withdrawalReceipt mAddress with
  | some receipt =>
      if receipt.tokenKind = TransferGatewayTokenKind.ERC20 then
        let loomNonce := receipt.withdrawalNonce
        if ethereumNonce = loomNonce then some receipt else none
      else none
  | none => none

/-- Handle to the secondary-chain TransferGateway contract binding
(`TransferGateway.createAsync(client, address)`): deterministic in the client's
address; reads against it consult the current chain state. -/
structure TransferGatewayHandle where
  boundAddress : Address
deriving DecidableEq, Repr

/-- Client-side state of the `Loom` chain object that the recovery reads touch:
its own address (`mAddress`) and the memoised gateway handle (`mGateway`). -/
structure LoomClientState where
  mAddress : Address
  mGateway : Option TransferGatewayHandle
deriving DecidableEq, Repr

/-- `Loom.getTransferGatewayAsync` (src/chains/Ethereum.ts lines 543-550): return
the memoised gateway handle, creating and caching it on first use. -/
def getTransferGatewayAsync (c : LoomClientState) :
    TransferGatewayHandle × LoomClientState :=
  match c.mGateway with
  | some gateway => (gateway, c)
  | none =>
      let gateway : TransferGatewayHandle := ⟨c.mAddress⟩
      (gateway, { c with mGateway := some gateway })

/-- `gateway.withdrawalReceiptAsync(owner)`: a read of the gateway contract's
storage; it submits no transaction and writes nothing on-chain. -/
def withdrawalReceiptAsync (_gateway : TransferGatewayHandle) (chain : GatewayState)
    (owner : Address) : Option WithdrawalReceipt :=
  chain.withdrawalReceipt owner

/-- State-passing run of `Loom.getPendingETHWithdrawalReceipt`: fetch the (memoised)
gateway handle, read the caller's receipt, and apply the kind/nonce checks. The
on-chain `GatewayState` is consumed read-only: the operation returns no modified
chain state because the source performs no write. -/
def getPendingETHWithdrawalReceiptRun (c : LoomClientState) (chain : GatewayState)
    (ethereumNonce : Nat) : Option WithdrawalReceipt × LoomClientState :=
  let p := getTransferGatewayAsync c
  let receipt := withdrawalReceiptAsync p.1 chain p.2.mAddress
  (match receipt with
   | some r =>
      if r.tokenKind = TransferGatewayTokenKind.ETH then
        if ethereumNonce = r.withdrawalNonce then some r else none
      else none
   | none => none, p.2)

/-- State-passing run of `Loom.getPendingERC20WithdrawalReceipt`. -/
def getPendingERC20WithdrawalReceiptRun (c : LoomClientState) (chain : GatewayState)
    (ethereumNonce : Nat) : Option WithdrawalReceipt × LoomClientState :=
  let p := getTransferGatewayAsync c
  let receipt := withdrawalReceiptAsync p.1 chain p.2.mAddress
  (match receipt with
   | some r =>
      if r.tokenKind = TransferGatewayTokenKind.ERC20 then
        if ethereumNonce = r.withdrawalNonce then some r else none
      else none
   | none => none, p.2)

/-- A gateway state holding, for the owner at local address 5, an ERC20
withdrawal receipt with nonce 2. -/
def sampleMismatchGateway : GatewayState :=
  ⟨fun a => if a = Address.createEthereumAddress 5 then
      some ⟨Address.createEthereumAddress 5, Address.createEthereumAddress 9,
        TransferGatewayTokenKind.ERC20, 50, 2, none⟩
    else none⟩

/-- A gateway state holding no withdrawal receipt for any owner. -/
def sampleEmptyGateway : GatewayState :=
  ⟨fun _ => none⟩

/-- Counterexample to claim C1 as stated: the recovery reads signal a mismatched
nonce by returning null — the very same observable they produce when no receipt
exists at all — so no distinct nonce-mismatch error is ever raised. At a gateway
holding an ERC20 receipt with nonce 2 for the owner, querying with Ethereum-side
nonce 1 returns null from both reads, and that result is equal to the result of
the same query against a gateway holding no receipt whatsoever. -/
theorem pending_receipt_mismatch_indistinguishable_from_absent :
    getPendingETHWithdrawalReceipt sampleMismatchGateway
      (Address.createEthereumAddress 5) 1 = none ∧
    getPendingERC20WithdrawalReceipt sampleMismatchGateway
      (Address.createEthereumAddress 5) 1 = none ∧
    getPendingETHWithdrawalReceipt sampleMismatchGateway
        (Address.createEthereumAddress 5) 1 =
      getPendingETHWithdrawalReceipt sampleEmptyGateway
        (Address.createEthereumAddress 5) 1 ∧
    getPendingERC20WithdrawalReceipt sampleMismatchGateway
        (Address.createEthereumAddress 5) 1 =
      getPendingERC20WithdrawalReceipt sampleEmptyGateway
        (Address.createEthereumAddress 5) 1 := by
  decide

/-- Claim C1, amended: if the secondary chain's withdrawal receipt for the owner
carries a nonce different from the nonce returned by the primary chain's
getWithdrawalNonce at call time, the recovery reads reject it by returning null
— both `getPendingETHWithdrawalReceipt` and `getPendingERC20WithdrawalReceipt`
return the absent result, indistinguishable from the no-receipt case rather
than a distinct nonce-mismatch error — so finalization can never proceed with
that receipt. -/
theorem pending_receipt_nonce_mismatch_rejected (chain : GatewayState)
    (owner : Address) (ethereumNonce : Nat) (receipt : WithdrawalReceipt)
    (hrec : chain.withdrawalReceipt owner = some receipt)
    (hnonce : receipt.withdrawalNonce ≠ ethereumNonce) :
    getPendingETHWithdrawalReceipt chain owner ethereumNonce = none ∧
    getPendingERC20WithdrawalReceipt chain owner ethereumNonce = none ∧
    (∀ chain2 : GatewayState, chain2.withdrawalReceipt owner = none →
      getPendingETHWithdrawalReceipt chain owner ethereumNonce =
        getPendingETHWithdrawalReceipt chain2 owner ethereumNonce ∧
      getPendingERC20WithdrawalReceipt chain owner ethereumNonce =
        getPendingERC20WithdrawalReceipt chain2 owner ethereumNonce) := by
  have heth : getPendingETHWithdrawalReceipt chain owner ethereumNonce = none := by
    simp only [getPendingETHWithdrawalReceipt, hrec]
    split <;> simp_all [eq_comm]
  have herc : getPendingERC20WithdrawalReceipt chain owner ethereumNonce = none := by
    simp only [getPendingERC20WithdrawalReceipt, hrec]
    split <;> simp_all [eq_comm]
  refine ⟨heth, herc, ?_⟩
  intro chain2 habsent
  constructor
  · rw [heth]
    simp [getPendingETHWithdrawalReceipt, habsent]
  · rw [herc]
    simp [getPendingERC20WithdrawalReceipt, habsent]

/-- Concrete run of claim C1's amended theorem: a stored ERC20 receipt with
nonce 2 is rejected by both recovery reads when the Ethereum-side nonce is 1. -/
theorem pending_receipt_nonce_mismatch_rejected_witness :
    getPendingETHWithdrawalReceipt
      ⟨fun a => if a = ⟨"eth", 5⟩ then
          some ⟨⟨"eth", 5⟩, ⟨"eth", 9⟩, TransferGatewayTokenKind.ERC20, 50, 2, none⟩
        else none⟩
      ⟨"eth", 5⟩ 1 = none ∧
    getPendingERC20WithdrawalReceipt
      ⟨fun a => if a = ⟨"eth", 5⟩ then
          some ⟨⟨"eth", 5⟩, ⟨"eth", 9⟩, TransferGatewayTokenKind.ERC20, 50, 2, none⟩
        else none⟩
      ⟨"eth", 5⟩ 1 = none :=
  ⟨(pending_receipt_nonce_mismatch_rejected _ _ 1
      ⟨⟨"eth", 5⟩, ⟨"eth", 9⟩, TransferGatewayTokenKind.ERC20, 50, 2, none⟩
      (by simp) (by decide)).1,
    (pending_receipt_nonce_mismatch_rejected _ _ 1
      ⟨⟨"eth", 5⟩, ⟨"eth", 9⟩, TransferGatewayTokenKind.ERC20, 50, 2, none⟩
      (by simp) (by decide)).2.1⟩

/-- Claim C2: `getPendingETHWithdrawalReceipt` returns a non-absent receipt exactly
when the gateway holds a withdrawal receipt for the caller's address whose token
kind is ETH and whose withdrawal nonce equals the given nonce, and returns null
otherwise; symmetrically for `getPendingERC20WithdrawalReceipt` with kind ERC20. -/
theorem pending_receipt_characterization (chain : GatewayState) (owner : Address)
    (ethereumNonce : Nat) (receipt : WithdrawalReceipt) :
    (getPendingETHWithdrawalReceipt chain owner ethereumNonce = some receipt ↔
      chain.withdrawalReceipt owner = some receipt ∧
      receipt.tokenKind = TransferGatewayTokenKind.ETH ∧
      receipt.withdrawalNonce = ethereumNonce) ∧
    (getPendingERC20WithdrawalReceipt chain owner ethereumNonce = some receipt ↔
      chain.withdrawalReceipt owner = some receipt ∧
      receipt.tokenKind = TransferGatewayTokenKind.ERC20 ∧
      receipt.withdrawalNonce = ethereumNonce) := by
  constructor
  · cases hr : chain.withdrawalReceipt owner with
    | none => simp [getPendingETHWithdrawalReceipt, hr]
    | some r =>
        simp only [getPendingETHWithdrawalReceipt, hr, Option.some.injEq]
        by_cases hkind : r.tokenKind = TransferGatewayTokenKind.ETH
        · by_cases hnonce : ethereumNonce = r.withdrawalNonce
          · simp only [hkind, if_true, if_pos hnonce, Option.some.injEq]
            constructor
            · rintro rfl
              exact ⟨rfl, hkind, hnonce.symm⟩
            · rintro ⟨h, -, -⟩
              exact h
          · simp only [hkind, if_true, if_neg hnonce]
            constructor
            · intro h
              exact absurd h (by simp)
            · rintro ⟨h, -, hn⟩
              subst h
              exact absurd hn.symm hnonce
        · simp only [if_neg hkind]
          constructor
          · intro h
            exact absurd h (by simp)
          · rintro ⟨h, hk, -⟩
            subst h
            exact absurd hk hkind
  · cases hr : chain.withdrawalReceipt owner with
    | none => simp [getPendingERC20WithdrawalReceipt, hr]
    | some r =>
        simp only [getPendingERC20WithdrawalReceipt, hr, Option.some.injEq]
        by_cases hkind : r.tokenKind = TransferGatewayTokenKind.ERC20
        · by_cases hnonce : ethereumNonce = r.withdrawalNonce
          · simp only [hkind, if_true, if_pos hnonce, Option.some.injEq]
            constructor
            · rintro rfl
              exact ⟨rfl, hkind, hnonce.symm⟩
            · rintro ⟨h, -, -⟩
              exact h
          · simp only [hkind, if_true, if_neg hnonce]
            constructor
            · intro h
              exact absurd h (by simp)
            · rintro ⟨h, -, hn⟩
              subst h
              exact absurd hn.symm hnonce
        · simp only [if_neg hkind]
          constructor
          · intro h
            exact absurd h (by simp)
          · rintro ⟨h, hk, -⟩
            subst h
            exact absurd hk hkind

/-- Claim C8: the recovery reads are idempotent and mutate nothing. Against one
and the same on-chain gateway state, running `getPendingETHWithdrawalReceipt` (or
the ERC20 variant) a second time, from the client state the first call left
behind, returns exactly the first call's result and leaves the client state
unchanged; the on-chain state is read-only to both calls by construction. -/
theorem pending_receipt_idempotent (c : LoomClientState) (chain : GatewayState)
    (ethereumNonce : Nat) :
    (getPendingETHWithdrawalReceiptRun
        (getPendingETHWithdrawalReceiptRun c chain ethereumNonce).2 chain
        ethereumNonce =
      getPendingETHWithdrawalReceiptRun c chain ethereumNonce) ∧
    (getPendingERC20WithdrawalReceiptRun
        (getPendingERC20WithdrawalReceiptRun c chain ethereumNonce).2 chain
        ethereumNonce =
      getPendingERC20WithdrawalReceiptRun c chain ethereumNonce) := by
  cases c with
  | mk mAddress mGateway =>
      cases mGateway <;>
        simp [getPendingETHWithdrawalReceiptRun, getPendingERC20WithdrawalReceiptRun,
          getTransferGatewayAsync]

/-- A decoded withdrawal-signed event as delivered by the secondary-chain gateway
subscription (loom-js `TransferGateway.EVENT_TOKEN_WITHDRAWAL`): the asset
contract, the owner, and the attestor signature bytes (`event.sig`). -/
structure TokenWithdrawalEvent where
  tokenContract : Address
  tokenOwner : Address
  sig : List Nat
deriving DecidableEq, Repr

/-- An event paired with its arrival time, in milliseconds measured from the
moment `listenToTokenWithdrawal` registered its timer and listener. -/
structure TimedEvent where
  time : Nat
  event : TokenWithdrawalEvent
deriving DecidableEq, Repr

/-- The fixed deadline `Loom.listenToTokenWithdrawal` passes to `setTimeout`
(src/chains/Ethereum.ts lines 730-733): 120000 milliseconds. -/
def LISTEN_TIMEOUT_MS : Nat := 120000

/-- How the promise returned by `listenToTokenWithdrawal` is settled: still
pending, resolved with the extracted signature bytes, or rejected by the
timeout error. A JS promise settles at most once; a later `resolve`/`reject`
call is a no-op. -/
inductive Settlement
  | pending
  | resolved (sig : List Nat)
  | rejectedTimeout
deriving DecidableEq, Repr

/-- Run-time state of one `listenToTokenWithdrawal` call: the promise's
settlement, whether the gateway event listener is still registered, and whether
the timeout timer is still armed. -/
structure ListenState where
  settlement : Settlement
  listenerRegistered : Bool
  timerActive : Bool
deriving DecidableEq, Repr

/-- The filter of `Loom.listenToTokenWithdrawal` (src/chains/Ethereum.ts line 735):
`event.tokenContract.equals(assetAddress) && event.tokenOwner.equals(ownerAddress)`.
(The LoomChain.ts variant takes strings and compares against
`Address.createEthereumAddress` of each, the same test.) -/
def eventMatches (assetAddress ownerAddress : Address) (e : TokenWithdrawalEvent) : Bool :=
  e.tokenContract.equals assetAddress && e.tokenOwner.equals ownerAddress

/-- State right after `listenToTokenWithdrawal` registers the timer and the
event listener: promise pending, listener on, timer armed. -/
def listenInit : ListenState :=
  ⟨Settlement.pending, true, true⟩

/-- The `setTimeout` callback: at or after the 120000 ms deadline, an armed timer
fires once, rejecting the promise with the timeout error if it is still pending
(a settled promise ignores the rejection). The timeout callback does NOT touch
the event listener — the source never calls `removeAllListeners` there. -/
def fireTimerIfDue (now : Nat) (s : ListenState) : ListenState :=
  if s.timerActive = true ∧ LISTEN_TIMEOUT_MS ≤ now then
    { settlement :=
        if s.settlement = Settlement.pending then Settlement.rejectedTimeout
        else s.settlement,
      listenerRegistered := s.listenerRegistered,
      timerActive := false }
  else s

/-- The `gateway.on(EVENT_TOKEN_WITHDRAWAL, ...)` callback (src/chains/Ethereum.ts
lines 734-740): while the listener is registered, a matching event clears the
timer, unregisters the listener and resolves the promise with the event's
signature (a no-op if the promise is already settled); any other event is
ignored. -/
def deliverEvent (assetAddress ownerAddress : Address) (s : ListenState)
    (e : TokenWithdrawalEvent) : ListenState :=
  if s.listenerRegistered = true then
    if eventMatches assetAddress ownerAddress e = true then
      { settlement :=
          if s.settlement = Settlement.pending then Settlement.resolved e.sig
          else s.settlement,
        listenerRegistered := false,
        timerActive := false }
    else s
  else s

/-- One delivery step: the single-threaded runtime runs the timer callback first
if the arrival time is past the deadline, then the event callback. -/
def listenStep (assetAddress ownerAddress : Address) (s : ListenState)
    (te : TimedEvent) : ListenState :=
  deliverEvent assetAddress ownerAddress (fireTimerIfDue te.time s) te.event

/-- A complete run of `Loom.listenToTokenWithdrawal` (src/chains/Ethereum.ts lines
727-742; LoomChain.ts lines 310-328) over a finite trace of gateway events in
arrival order, observed until `endTime` milliseconds after registration. -/
def listenToTokenWithdrawal (assetAddress ownerAddress : Address)
    (events : List TimedEvent) (endTime : Nat) : ListenState :=
  fireTimerIfDue endTime (events.foldl (listenStep assetAddress ownerAddress) listenInit)

theorem fireTimerIfDue_resolved (t : Nat) (s : ListenState) (sg : List Nat)
    (h : (fireTimerIfDue t s).settlement = Settlement.resolved sg) :
    s.settlement = Settlement.resolved sg := by
  unfold fireTimerIfDue at h
  split at h
  · by_cases hp : s.settlement = Settlement.pending <;> simp_all
  · exact h

theorem fireTimerIfDue_listener (t : Nat) (s : ListenState) :
    (fireTimerIfDue t s).listenerRegistered = s.listenerRegistered := by
  unfold fireTimerIfDue
  split <;> rfl

theorem deliverEvent_resolved (a o : Address) (s : ListenState)
    (e : TokenWithdrawalEvent) (sg : List Nat)
    (h : (deliverEvent a o s e).settlement = Settlement.resolved sg) :
    s.settlement = Settlement.resolved sg ∨
      (eventMatches a o e = true ∧ e.sig = sg) := by
  unfold deliverEvent at h
  split at h
  · split at h
    · by_cases hp : s.settlement = Settlement.pending
      · simp only [hp, if_pos] at h
        right
        constructor
        · assumption
        · exact (Settlement.resolved.injEq _ _ ▸ h).symm ▸ rfl
      · simp only [if_neg hp] at h
        exact Or.inl h
    · exact Or.inl h
  · exact Or.inl h

theorem foldl_listenStep_resolved (a o : Address) (evs : List TimedEvent) :
    ∀ (s : ListenState) (sg : List Nat),
    (evs.foldl (listenStep a o) s).settlement = Settlement.resolved sg →
    s.settlement = Settlement.resolved sg ∨
      ∃ te ∈ evs, eventMatches a o te.event = true ∧ te.event.sig = sg := by
  induction evs with
  | nil =>
      intro s sg h
      exact Or.inl h
  | cons te rest ih =>
      intro s sg h
      rw [List.foldl_cons] at h
      rcases ih (listenStep a o s te) sg h with h1 | ⟨te2, hmem, hm, hs⟩
      · rcases deliverEvent_resolved a o (fireTimerIfDue te.time s) te.event sg h1 with
          h2 | ⟨hm, hs⟩
        · exact Or.inl (fireTimerIfDue_resolved te.time s sg h2)
        · exact Or.inr ⟨te, List.mem_cons_self te rest, hm, hs⟩
      · exact Or.inr ⟨te2, List.mem_cons_of_mem te hmem, hm, hs⟩

/-- Claim C3: `listenToTokenWithdrawal(assetAddress, ownerAddress)` never resolves
on an event whose `tokenContract` differs from `assetAddress` or whose
`tokenOwner` differs from `ownerAddress`: whenever the wait resolves with a
signature, that signature was carried by a delivered event matching both the
asset and the owner. In particular, given events for owners A and B, a wait
filtered for A never resolves on an event belonging to B. -/
theorem listen_resolves_only_matching_events (assetAddress ownerAddress : Address)
    (events : List TimedEvent) (endTime : Nat) (sg : List Nat)
    (h : (listenToTokenWithdrawal assetAddress ownerAddress events endTime).settlement =
      Settlement.resolved sg) :
    ∃ te ∈ events, te.event.tokenContract.equals assetAddress = true ∧
      te.event.tokenOwner.equals ownerAddress = true ∧ te.event.sig = sg := by
  unfold listenToTokenWithdrawal at h
  have h1 := fireTimerIfDue_resolved endTime _ sg h
  rcases foldl_listenStep_resolved assetAddress ownerAddress events listenInit sg h1 with
    h2 | ⟨te, hmem, hmatch, hsig⟩
  · simp [listenInit] at h2
  · rw [eventMatches, Bool.and_eq_true] at hmatch
    exact ⟨te, hmem, hmatch.1, hmatch.2, hsig⟩

/-- Concrete run of claim C3's theorem: a single matching event, delivered one
second in, resolves the wait, and the theorem locates it in the trace. -/
theorem listen_resolves_only_matching_events_witness :
    ∃ te ∈ [TimedEvent.mk 1000
        ⟨Address.createEthereumAddress 7, Address.createEthereumAddress 5, [1, 2, 3]⟩],
      te.event.tokenContract.equals (Address.createEthereumAddress 7) = true ∧
      te.event.tokenOwner.equals (Address.createEthereumAddress 5) = true ∧
      te.event.sig = [1, 2, 3] :=
  listen_resolves_only_matching_events (Address.createEthereumAddress 7)
    (Address.createEthereumAddress 5)
    [TimedEvent.mk 1000
      ⟨Address.createEthereumAddress 7, Address.createEthereumAddress 5, [1, 2, 3]⟩]
    2000 [1, 2, 3] (by decide)

theorem listenStep_fixpoint (a o : Address) (s : ListenState) (te : TimedEvent)
    (hl : s.listenerRegistered = false) (ht : s.timerActive = false) :
    listenStep a o s te = s := by
  unfold listenStep fireTimerIfDue deliverEvent
  simp [hl, ht]

theorem foldl_listenStep_fixpoint (a o : Address) (evs : List TimedEvent)
    (s : ListenState) (hl : s.listenerRegistered = false)
    (ht : s.timerActive = false) :
    evs.foldl (listenStep a o) s = s := by
  induction evs with
  | nil => rfl
  | cons te rest ih =>
      rw [List.foldl_cons, listenStep_fixpoint a o s te hl ht]
      exact ih

theorem fireTimerIfDue_settled_stable (t : Nat) (s : ListenState)
    (h : s.settlement ≠ Settlement.pending) :
    (fireTimerIfDue t s).settlement = s.settlement := by
  unfold fireTimerIfDue
  split
  · simp [h]
  · rfl

theorem listenStep_settled_stable (a o : Address) (s : ListenState) (te : TimedEvent)
    (h : s.settlement ≠ Settlement.pending) :
    (listenStep a o s te).settlement = s.settlement := by
  have h1 := fireTimerIfDue_settled_stable te.time s h
  unfold listenStep deliverEvent
  split
  · split
    · simp [h1, h]
    · exact h1
  · exact h1

theorem deliverEvent_resolvedUnregistered (a o : Address) (s : ListenState)
    (e : TokenWithdrawalEvent)
    (h : ∀ sg, s.settlement = Settlement.resolved sg → s.listenerRegistered = false) :
    ∀ sg, (deliverEvent a o s e).settlement = Settlement.resolved sg →
      (deliverEvent a o s e).listenerRegistered = false := by
  intro sg hr
  by_cases hl : s.listenerRegistered = true
  · by_cases hm : eventMatches a o e = true
    · simp [deliverEvent, hl, hm]
    · have heq : deliverEvent a o s e = s := by simp [deliverEvent, hl, hm]
      rw [heq] at hr ⊢
      exact h sg hr
  · have heq : deliverEvent a o s e = s := by simp [deliverEvent, hl]
    rw [heq] at hr ⊢
    exact h sg hr

theorem fireTimerIfDue_resolvedUnregistered (t : Nat) (s : ListenState)
    (h : ∀ sg, s.settlement = Settlement.resolved sg → s.listenerRegistered = false) :
    ∀ sg, (fireTimerIfDue t s).settlement = Settlement.resolved sg →
      (fireTimerIfDue t s).listenerRegistered = false := by
  intro sg hr
  rw [fireTimerIfDue_listener]
  exact h sg (fireTimerIfDue_resolved t s sg hr)

theorem foldl_resolvedUnregistered (a o : Address) (evs : List TimedEvent) :
    ∀ s : ListenState,
    (∀ sg, s.settlement = Settlement.resolved sg → s.listenerRegistered = false) →
    ∀ sg, (evs.foldl (listenStep a o) s).settlement = Settlement.resolved sg →
      (evs.foldl (listenStep a o) s).listenerRegistered = false := by
  induction evs with
  | nil =>
      intro s h
      exact h
  | cons te rest ih =>
      intro s h
      rw [List.foldl_cons]
      exact ih (listenStep a o s te)
        (deliverEvent_resolvedUnregistered a o (fireTimerIfDue te.time s) te.event
          (fireTimerIfDue_resolvedUnregistered te.time s h))

theorem listenStep_listener_nonmatching (a o : Address) (s : ListenState)
    (te : TimedEvent) (h : eventMatches a o te.event = false) :
    (listenStep a o s te).listenerRegistered = s.listenerRegistered := by
  unfold listenStep deliverEvent
  simp [h, fireTimerIfDue_listener]

theorem foldl_listener_nonmatching (a o : Address) (evs : List TimedEvent) :
    ∀ s : ListenState, (∀ te ∈ evs, eventMatches a o te.event = false) →
    (evs.foldl (listenStep a o) s).listenerRegistered = s.listenerRegistered := by
  induction evs with
  | nil =>
      intro s _
      rfl
  | cons te rest ih =>
      intro s hall
      rw [List.foldl_cons, ih (listenStep a o s te)
        (fun te2 hm => hall te2 (List.mem_cons_of_mem te hm)),
        listenStep_listener_nonmatching a o s te (hall te (List.mem_cons_self te rest))]

/-- Counterexample to claim C4 as stated: with no events delivered, the
120-second deadline elapses and the wait completes as a timeout, yet the
underlying subscription is still registered when control returns to the caller —
the timeout callback in the source only rejects the promise and never calls
`gateway.removeAllListeners`, so on the timeout completion path the subscription
is not unregistered. -/
theorem listen_timeout_leaves_listener_registered :
    (listenToTokenWithdrawal (Address.createEthereumAddress 7)
        (Address.createEthereumAddress 5) [] 120000).settlement =
      Settlement.rejectedTimeout ∧
    (listenToTokenWithdrawal (Address.createEthereumAddress 7)
        (Address.createEthereumAddress 5) [] 120000).listenerRegistered = true := by
  decide

/-- Claim C4, amended: on the matching-event completion path the subscription is
unregistered before control returns (a resolved wait always ends with the
listener removed), and the caller's completion is delivered at most once — once
the promise is settled, neither a later delivery step nor the timer changes the
settlement, so the match and the timeout are never both delivered. On the
timeout completion path, however, the subscription is NOT unregistered: if no
matching event ever arrives, the listener is still registered when control
returns. -/
theorem listen_unsubscribe_at_most_once (assetAddress ownerAddress : Address)
    (events : List TimedEvent) (endTime : Nat) :
    (∀ sg : List Nat,
      (listenToTokenWithdrawal assetAddress ownerAddress events endTime).settlement =
        Settlement.resolved sg →
      (listenToTokenWithdrawal assetAddress ownerAddress events endTime).listenerRegistered =
        false) ∧
    (∀ (s : ListenState) (te : TimedEvent), s.settlement ≠ Settlement.pending →
      (listenStep assetAddress ownerAddress s te).settlement = s.settlement ∧
      (fireTimerIfDue te.time s).settlement = s.settlement) ∧
    ((∀ te ∈ events, eventMatches assetAddress ownerAddress te.event = false) →
      (listenToTokenWithdrawal assetAddress ownerAddress events endTime).listenerRegistered =
        true) := by
  refine ⟨?_, ?_, ?_⟩
  · intro sg hr
    unfold listenToTokenWithdrawal at hr ⊢
    rw [fireTimerIfDue_listener]
    exact foldl_resolvedUnregistered assetAddress ownerAddress events listenInit
      (fun sg2 h2 => by simp [listenInit] at h2) sg
      (fireTimerIfDue_resolved endTime _ sg hr)
  · intro s te h
    exact ⟨listenStep_settled_stable assetAddress ownerAddress s te h,
      fireTimerIfDue_settled_stable te.time s h⟩
  · intro hall
    unfold listenToTokenWithdrawal
    rw [fireTimerIfDue_listener,
      foldl_listener_nonmatching assetAddress ownerAddress events listenInit hall]
    rfl

/-- Concrete runs of claim C4's amended theorem: a matching event leaves the
listener unregistered; a trace with only a non-matching event leaves it
registered. -/
theorem listen_unsubscribe_at_most_once_witness :
    (listenToTokenWithdrawal (Address.createEthereumAddress 7)
        (Address.createEthereumAddress 5)
        [⟨1000, ⟨Address.createEthereumAddress 7, Address.createEthereumAddress 5, [9]⟩⟩]
        150000).listenerRegistered = false ∧
    (listenToTokenWithdrawal (Address.createEthereumAddress 7)
        (Address.createEthereumAddress 5)
        [⟨1000, ⟨Address.createEthereumAddress 8, Address.createEthereumAddress 5, [9]⟩⟩]
        150000).listenerRegistered = true :=
  ⟨(listen_unsubscribe_at_most_once (Address.createEthereumAddress 7)
      (Address.createEthereumAddress 5)
      [⟨1000, ⟨Address.createEthereumAddress 7, Address.createEthereumAddress 5, [9]⟩⟩]
      150000).1 [9] (by decide),
    (listen_unsubscribe_at_most_once (Address.createEthereumAddress 7)
      (Address.createEthereumAddress 5)
      [⟨1000, ⟨Address.createEthereumAddress 8, Address.createEthereumAddress 5, [9]⟩⟩]
      150000).2.2 (by decide)⟩

theorem listen_first_match_resolves (a o : Address) (evs : List TimedEvent) :
    ∀ (T : Nat) (te : TimedEvent),
    List.Pairwise (fun x y => x.time ≤ y.time) evs →
    evs.find? (fun te2 => eventMatches a o te2.event) = some te →
    te.time < LISTEN_TIMEOUT_MS →
    (listenToTokenWithdrawal a o evs T).settlement = Settlement.resolved te.event.sig := by
  induction evs with
  | nil =>
      intro T te _ hf _
      simp at hf
  | cons e rest ih =>
      intro T te hpw hf hlt
      by_cases hm : eventMatches a o e.event = true
      · rw [@List.find?_cons_of_pos TimedEvent (fun te2 => eventMatches a o te2.event)
          e rest hm, Option.some.injEq] at hf
        subst hf
        unfold listenToTokenWithdrawal
        rw [List.foldl_cons]
        have hstep : listenStep a o listenInit e =
            ⟨Settlement.resolved e.event.sig, false, false⟩ := by
          unfold listenStep fireTimerIfDue deliverEvent listenInit
          simp [hm, Nat.not_le.mpr hlt]
        rw [hstep, foldl_listenStep_fixpoint a o rest _ rfl rfl]
        unfold fireTimerIfDue
        simp
      · have hm2 : ¬ (fun te2 => eventMatches a o te2.event) e = true := hm
        rw [@List.find?_cons_of_neg TimedEvent (fun te2 => eventMatches a o te2.event)
          e rest hm2] at hf
        have hmem := List.mem_of_find?_eq_some hf
        rcases List.pairwise_cons.mp hpw with ⟨hhead, htail⟩
        have helt : e.time < LISTEN_TIMEOUT_MS :=
          Nat.lt_of_le_of_lt (hhead te hmem) hlt
        have hstep : listenStep a o listenInit e = listenInit := by
          unfold listenStep fireTimerIfDue deliverEvent listenInit
          simp [hm, Nat.not_le.mpr helt]
        unfold listenToTokenWithdrawal
        rw [List.foldl_cons, hstep]
        exact ih T te htail hf hlt

theorem listenStep_timeoutInv (a o : Address) (s : ListenState) (te : TimedEvent)
    (hinv : s = listenInit ∨
      (s.settlement = Settlement.rejectedTimeout ∧ s.timerActive = false))
    (hm : eventMatches a o te.event = true → LISTEN_TIMEOUT_MS ≤ te.time) :
    listenStep a o s te = listenInit ∨
      ((listenStep a o s te).settlement = Settlement.rejectedTimeout ∧
        (listenStep a o s te).timerActive = false) := by
  rcases hinv with rfl | ⟨hs, ht⟩
  · by_cases hdue : LISTEN_TIMEOUT_MS ≤ te.time
    · right
      by_cases hmm : eventMatches a o te.event = true
      · simp [listenStep, fireTimerIfDue, deliverEvent, listenInit, hdue, hmm]
      · simp [listenStep, fireTimerIfDue, deliverEvent, listenInit, hdue, hmm]
    · left
      have hmm : ¬ eventMatches a o te.event = true := fun hmm2 => hdue (hm hmm2)
      simp [listenStep, fireTimerIfDue, deliverEvent, listenInit, hdue, hmm]
  · right
    by_cases hl : s.listenerRegistered = true
    · by_cases hmm : eventMatches a o te.event = true
      · simp [listenStep, fireTimerIfDue, deliverEvent, ht, hs, hl, hmm]
      · simp [listenStep, fireTimerIfDue, deliverEvent, ht, hs, hl, hmm]
    · simp [listenStep, fireTimerIfDue, deliverEvent, ht, hs, hl]

theorem foldl_timeoutInv (a o : Address) (evs : List TimedEvent) :
    ∀ s : ListenState,
    (s = listenInit ∨
      (s.settlement = Settlement.rejectedTimeout ∧ s.timerActive = false)) →
    (∀ te ∈ evs, eventMatches a o te.event = true → LISTEN_TIMEOUT_MS ≤ te.time) →
    (evs.foldl (listenStep a o) s = listenInit ∨
      ((evs.foldl (listenStep a o) s).settlement = Settlement.rejectedTimeout ∧
        (evs.foldl (listenStep a o) s).timerActive = false)) := by
  induction evs with
  | nil =>
      intro s h _
      exact h
  | cons te rest ih =>
      intro s h hall
      rw [List.foldl_cons]
      exact ih (listenStep a o s te)
        (listenStep_timeoutInv a o s te h (hall te (List.mem_cons_self te rest)))
        (fun te2 hm2 => hall te2 (List.mem_cons_of_mem te hm2))

/-- Claim C5: `listenToTokenWithdrawal` races the filtered event wait against the
fixed 120000 ms deadline. If the first matching event of a time-ordered trace
arrives strictly before the deadline, the wait resolves with that event's
extracted signature; if every matching event arrives at or after the deadline
and the trace is observed past the deadline, the wait completes as the timeout
rejection, not as a success. -/
theorem listen_races_match_against_deadline (assetAddress ownerAddress : Address)
    (events : List TimedEvent) (endTime : Nat) :
    LISTEN_TIMEOUT_MS = 120000 ∧
    (∀ te : TimedEvent,
      List.Pairwise (fun x y => x.time ≤ y.time) events →
      events.find? (fun te2 => eventMatches assetAddress ownerAddress te2.event) =
        some te →
      te.time < LISTEN_TIMEOUT_MS →
      (listenToTokenWithdrawal assetAddress ownerAddress events endTime).settlement =
        Settlement.resolved te.event.sig) ∧
    ((∀ te ∈ events, eventMatches assetAddress ownerAddress te.event = true →
        LISTEN_TIMEOUT_MS ≤ te.time) →
      LISTEN_TIMEOUT_MS ≤ endTime →
      (listenToTokenWithdrawal assetAddress ownerAddress events endTime).settlement =
        Settlement.rejectedTimeout) := by
  refine ⟨rfl, ?_, ?_⟩
  · intro te hpw hf hlt
    exact listen_first_match_resolves assetAddress ownerAddress events endTime te hpw hf hlt
  · intro hall hT
    unfold listenToTokenWithdrawal
    rcases foldl_timeoutInv assetAddress ownerAddress events listenInit (Or.inl rfl) hall with
      hinv | ⟨hs, ht⟩
    · rw [hinv]
      simp [fireTimerIfDue, listenInit, hT]
    · rw [fireTimerIfDue_settled_stable endTime _ (by simp [hs])]
      exact hs

/-- Concrete runs of claim C5's theorem: a matching event one second in resolves
the wait with its signature; an empty trace observed at the deadline is rejected
as a timeout. -/
theorem listen_races_match_against_deadline_witness :
    (listenToTokenWithdrawal (Address.createEthereumAddress 7)
        (Address.createEthereumAddress 5)
        [⟨1000, ⟨Address.createEthereumAddress 7, Address.createEthereumAddress 5, [9]⟩⟩]
        150000).settlement = Settlement.resolved [9] ∧
    (listenToTokenWithdrawal (Address.createEthereumAddress 7)
        (Address.createEthereumAddress 5) [] 120000).settlement =
      Settlement.rejectedTimeout :=
  ⟨(listen_races_match_against_deadline (Address.createEthereumAddress 7)
      (Address.createEthereumAddress 5)
      [⟨1000, ⟨Address.createEthereumAddress 7, Address.createEthereumAddress 5, [9]⟩⟩]
      150000).2.1
      ⟨1000, ⟨Address.createEthereumAddress 7, Address.createEthereumAddress 5, [9]⟩⟩
      (by decide) (by decide) (by decide),
    (listen_races_match_against_deadline (Address.createEthereumAddress 7)
      (Address.createEthereumAddress 5) [] 120000).2.2
      (by intro te h; cases h) (by decide)⟩

/-- One topic position of an Ethereum `getLogs` query: either a single required
topic value, or a list of alternatives (the JSON-RPC array form, matched when
the log's topic at that position equals any listed value). -/
inductive TopicFilter
  | exact (t : Nat)
  | oneOf (ts : List Nat)
deriving DecidableEq, Repr

/-- Position-wise topic matching of the Ethereum log layer: every position the
pattern constrains must exist in the log and match; positions beyond the
pattern are unconstrained. -/
def topicsMatch : List TopicFilter → List Nat → Bool
  | [], _ => true
  | TopicFilter.exact p :: ps, t :: ts => (p == t) && topicsMatch ps ts
  | TopicFilter.oneOf qs :: ps, t :: ts => qs.contains t && topicsMatch ps ts
  | _ :: _, [] => false

/-- Decoded payload of a gateway log, standing for the log's ABI-encoded fields.
For `TokenWithdrawn` the `owner` is an indexed event parameter: it travels in
`topics[1]`, not in `log.data`, and is recorded here only so that
well-formedness of a chain's logs can relate the payload to the topics. -/
inductive LogPayload
  | ethReceived (fromAddr : Nat) (amount : Nat)
  | erc20Received (fromAddr : Nat) (amount : Nat) (contractAddress : Nat)
  | tokenWithdrawn (owner : Nat) (contractAddress : Nat) (value : Nat)
deriving DecidableEq, Repr

/-- A raw chain log (`ethers.providers.Log`): emitting contract address, topic
list, block number, and its decoded payload. Only mined logs are modelled, so
the block number is always present. -/
structure Log where
  address : Nat
  topics : List Nat
  blockNumber : Nat
  payload : LogPayload
deriving DecidableEq, Repr

/-- Topic encoding of an indexed address parameter: the 20-byte value
zero-extended to 32 bytes, hence numerically below `2 ^ 160`. -/
def encodeAddressTopic (address : Nat) : Nat := address

/-- Every topic encoding of a 20-byte address is below this bound. -/
def ADDRESS_TOPIC_BOUND : Nat := 2 ^ 160

/-- Topic hash of the gateway's `ETHReceived` event: a keccak-256 event-signature
hash, modelled as a fixed value no zero-extended 20-byte address can equal. -/
def ETHReceivedTopic : Nat := ADDRESS_TOPIC_BOUND + 1

/-- Topic hash of the gateway's `ERC20Received` event. -/
def ERC20ReceivedTopic : Nat := ADDRESS_TOPIC_BOUND + 2

/-- Topic hash of the gateway's `TokenWithdrawn` event. -/
def TokenWithdrawnTopic : Nat := ADDRESS_TOPIC_BOUND + 3

/-- ethers v4 `EventDescription.encodeTopics(values)`, as the source uses it with
the single indexed `owner` address of `TokenWithdrawn`: for a non-anonymous
event the produced topic list starts with the event's own topic hash, followed
by the encodings of the given indexed values. -/
def encodeTopics (eventTopic : Nat) (values : List Nat) : List Nat :=
  eventTopic :: values.map encodeAddressTopic

/-- An Ethereum `getLogs` query: emitting address, topic pattern, block range. -/
structure LogFilter where
  address : Nat
  topics : List TopicFilter
  fromBlock : Nat
  toBlock : Nat
deriving Repr

/-- Modelled from the spec: the `getLogs` helper the source imports from
src/utils/ethers-utils (a file not present under src/) wraps the chain RPC
collaborator's log query ("query contract state/events"): it returns the
chain's logs emitted by the filter's address whose topics match the filter's
topic pattern and whose block number lies within [fromBlock, toBlock]. -/
def getLogs (chainLogs : List Log) (f : LogFilter) : List Log :=
  chainLogs.filter (fun l =>
    (l.address == f.address) && topicsMatch f.topics l.topics &&
      decide (f.fromBlock ≤ l.blockNumber) && decide (l.blockNumber ≤ f.toBlock))

/-- The on-chain data reachable from the `Ethereum` chain object in the log
queries: the caller's own address (`this.address`), the gateway contract's
address and the block number of its deployment transaction
(`EthereumNetwork.current().gateway`; `getTransaction(...).blockNumber` is
absent while the transaction is pending), the current head block number
(`getBlockNumber()`), and the chain's logs. -/
structure EthereumChainState where
  address : Address
  gatewayAddress : Nat
  gatewayDeployTransactionBlockNumber : Option Nat
  headBlockNumber : Nat
  logs : List Log

/-- The `fromBlock` default of the three log queries:
`Number(transaction.blockNumber || 0)` of the gateway's deployment transaction. -/
def gatewayDeployBlock (st : EthereumChainState) : Nat :=
  match st.gatewayDeployTransactionBlockNumber with
  | some b => b
  | none => 0

/-- `ETHReceived` entry (src/chains/Ethereum.ts lines 20-24): the raw log plus
the decoded fields. The source's `from` is a Lean keyword; it is `fromAddr`
here. -/
structure ETHReceived where
  log : Log
  fromAddr : Nat
  amount : Nat
deriving DecidableEq, Repr

/-- `ERC20Received` entry (src/chains/Ethereum.ts lines 26-31). -/
structure ERC20Received where
  log : Log
  fromAddr : Nat
  amount : Nat
  contractAddress : Nat
deriving DecidableEq, Repr

/-- Entry of `getTokenWithdrawnLogsAsync`: the raw log plus the decoded
non-indexed fields (the indexed `owner` is in `topics[1]`, not in `log.data`). -/
structure TokenWithdrawn where
  log : Log
  contractAddress : Nat
  value : Nat
deriving DecidableEq, Repr

/-- `event.decode(log.data)` for `ETHReceived`: decoding a log of a different
event yields meaningless values, modelled as zeros. -/
def decodeETHReceived (l : Log) : ETHReceived :=
  match l.payload with
  | LogPayload.ethReceived f a => ⟨l, f, a⟩
  | _ => ⟨l, 0, 0⟩

/-- `event.decode(log.data)` for `ERC20Received`. -/
def decodeERC20Received (l : Log) : ERC20Received :=
  match l.payload with
  | LogPayload.erc20Received f a c => ⟨l, f, a, c⟩
  | _ => ⟨l, 0, 0, 0⟩

/-- `event.decode(log.data)` for `TokenWithdrawn`. -/
def decodeTokenWithdrawn (l : Log) : TokenWithdrawn :=
  match l.payload with
  | LogPayload.tokenWithdrawn _ c v => ⟨l, c, v⟩
  | _ => ⟨l, 0, 0⟩

/-- The comparator `(l1, l2) => (l2.blockNumber || 0) - (l1.blockNumber || 0)`
passed to `Array.sort` in the three log queries: descending block number. -/
def byDescendingBlockNumber (l1 l2 : Log) : Prop :=
  l2.blockNumber ≤ l1.blockNumber

instance : DecidableRel byDescendingBlockNumber :=
  fun l1 l2 => Nat.decLe l2.blockNumber l1.blockNumber

instance : IsTotal Log byDescendingBlockNumber :=
  ⟨fun l1 l2 => Nat.le_total l2.blockNumber l1.blockNumber⟩

instance : IsTrans Log byDescendingBlockNumber :=
  ⟨fun _ _ _ h1 h2 => Nat.le_trans h2 h1⟩

/-- `Ethereum.getETHReceivedLogsAsync` (src/chains/Ethereum.ts lines 232-256):
default an unset (0) `fromBlock` to the gateway deployment transaction's block
and an unset (0) `toBlock` to the current head; query the gateway's
`ETHReceived` logs over that range; sort by descending block number; decode;
keep only entries whose `from` address equals the caller's own address. -/
def getETHReceivedLogsAsync (st : EthereumChainState) (fromBlock toBlock : Nat) :
    List ETHReceived :=
  let fromBlock := if fromBlock = 0 then gatewayDeployBlock st else fromBlock
  let toBlock := if toBlock = 0 then st.headBlockNumber else toBlock
  let logs := getLogs st.logs
    { address := st.gatewayAddress, topics := [TopicFilter.exact ETHReceivedTopic],
      fromBlock := fromBlock, toBlock := toBlock }
  ((logs.insertionSort byDescendingBlockNumber).map decodeETHReceived).filter
    (fun data => (Address.createEthereumAddress data.fromAddr).equals st.address)

/-- `Ethereum.getERC20ReceivedLogsAsync` (src/chains/Ethereum.ts lines 268-300):
as the ETH variant, over `ERC20Received` logs, additionally keeping only entries
whose decoded contract address equals the queried asset's address. -/
def getERC20ReceivedLogsAsync (st : EthereumChainState) (assetAddress : Address)
    (fromBlock toBlock : Nat) : List ERC20Received :=
  let fromBlock := if fromBlock = 0 then gatewayDeployBlock st else fromBlock
  let toBlock := if toBlock = 0 then st.headBlockNumber else toBlock
  let logs := getLogs st.logs
    { address := st.gatewayAddress, topics := [TopicFilter.exact ERC20ReceivedTopic],
      fromBlock := fromBlock, toBlock := toBlock }
  ((logs.insertionSort byDescendingBlockNumber).map decodeERC20Received).filter
    (fun data => (Address.createEthereumAddress data.fromAddr).equals st.address &&
      (Address.createEthereumAddress data.contractAddress).equals assetAddress)

/-- `Ethereum.getTokenWithdrawnLogsAsync` (src/chains/Ethereum.ts lines 331-355):
as above over `TokenWithdrawn` logs; ownership is filtered on-node through the
topic pattern `[event.topic, event.encodeTopics([this.address])]` (the second
position is the ethers v4 list `[TokenWithdrawnTopic, ownerTopic]`, matched as
alternatives), and the decoded entries are filtered by the queried asset's
contract address. -/
def getTokenWithdrawnLogsAsync (st : EthereumChainState) (assetAddress : Address)
    (fromBlock toBlock : Nat) : List TokenWithdrawn :=
  let fromBlock := if fromBlock = 0 then gatewayDeployBlock st else fromBlock
  let toBlock := if toBlock = 0 then st.headBlockNumber else toBlock
  let logs := getLogs st.logs
    { address := st.gatewayAddress,
      topics := [TopicFilter.exact TokenWithdrawnTopic,
        TopicFilter.oneOf (encodeTopics TokenWithdrawnTopic [st.address.localAddr])],
      fromBlock := fromBlock, toBlock := toBlock }
  ((logs.insertionSort byDescendingBlockNumber).map decodeTokenWithdrawn).filter
    (fun data => (Address.createEthereumAddress data.contractAddress).equals assetAddress)

/-- Well-formedness of one chain log, as the Ethereum log layer guarantees it: a
log whose first topic is the `TokenWithdrawn` event hash was emitted by that
event, so its payload has the `tokenWithdrawn` shape, its topics are exactly the
event hash followed by the topic encoding of the indexed `owner`, and the owner
is a 20-byte value. -/
def tokenWithdrawnLogWellFormed (l : Log) : Bool :=
  if l.topics.head? = some TokenWithdrawnTopic then
    match l.payload with
    | LogPayload.tokenWithdrawn owner _ _ =>
        decide (l.topics = [TokenWithdrawnTopic, encodeAddressTopic owner]) &&
          decide (owner < ADDRESS_TOPIC_BOUND)
    | _ => false
  else true

theorem decodeETHReceived_log (l : Log) : (decodeETHReceived l).log = l := by
  unfold decodeETHReceived
  split <;> rfl

theorem decodeERC20Received_log (l : Log) : (decodeERC20Received l).log = l := by
  unfold decodeERC20Received
  split <;> rfl

theorem decodeTokenWithdrawn_log (l : Log) : (decodeTokenWithdrawn l).log = l := by
  unfold decodeTokenWithdrawn
  split <;> rfl

theorem sorted_map_filter {α : Type} (logs : List Log) (f : Log → α)
    (blockOf : α → Nat) (hf : ∀ l, blockOf (f l) = l.blockNumber) (p : α → Bool) :
    (((logs.insertionSort byDescendingBlockNumber).map f).filter p).Pairwise
      (fun d1 d2 => blockOf d2 ≤ blockOf d1) := by
  have h1 : (logs.insertionSort byDescendingBlockNumber).Pairwise byDescendingBlockNumber :=
    List.sorted_insertionSort byDescendingBlockNumber logs
  have h2 : ((logs.insertionSort byDescendingBlockNumber).map f).Pairwise
      (fun d1 d2 => blockOf d2 ≤ blockOf d1) := by
    rw [List.pairwise_map]
    refine h1.imp ?_
    intro a b h
    rw [hf, hf]
    exact h
  exact h2.filter p

theorem tokenWithdrawn_entries_owned (st : EthereumChainState) (assetAddress : Address)
    (fromBlock toBlock : Nat)
    (hwf : st.logs.all tokenWithdrawnLogWellFormed = true) :
    ∀ d ∈ getTokenWithdrawnLogsAsync st assetAddress fromBlock toBlock,
      d.log.topics = [TokenWithdrawnTopic, encodeAddressTopic st.address.localAddr] ∧
      Address.createEthereumAddress d.contractAddress = assetAddress := by
  intro d hd
  simp only [getTokenWithdrawnLogsAsync, List.mem_filter, List.mem_map] at hd
  rcases hd with ⟨⟨l, hlmem, rfl⟩, hpred⟩
  refine ⟨?_, (Address.equals_iff _ _).mp hpred⟩
  rw [decodeTokenWithdrawn_log]
  have hl2 : l ∈ getLogs st.logs
      { address := st.gatewayAddress,
        topics := [TopicFilter.exact TokenWithdrawnTopic,
          TopicFilter.oneOf (encodeTopics TokenWithdrawnTopic [st.address.localAddr])],
        fromBlock := if fromBlock = 0 then gatewayDeployBlock st else fromBlock,
        toBlock := if toBlock = 0 then st.headBlockNumber else toBlock } :=
    (List.mem_insertionSort _).mp hlmem
  simp only [getLogs, List.mem_filter] at hl2
  rcases hl2 with ⟨hmem, hbool⟩
  rw [Bool.and_eq_true, Bool.and_eq_true, Bool.and_eq_true] at hbool
  have htm := hbool.1.1.2
  have hwfl : tokenWithdrawnLogWellFormed l = true := List.all_eq_true.mp hwf l hmem
  cases htopics : l.topics with
  | nil =>
      rw [htopics] at htm
      simp [topicsMatch] at htm
  | cons t0 rest =>
      cases rest with
      | nil =>
          rw [htopics] at htm
          simp [topicsMatch] at htm
      | cons t1 rest2 =>
          rw [htopics] at htm
          simp only [topicsMatch, Bool.and_eq_true, beq_iff_eq] at htm
          have ht0 : TokenWithdrawnTopic = t0 := htm.1
          have hcontains := htm.2.1
          rw [tokenWithdrawnLogWellFormed, htopics] at hwfl
          rw [if_pos (by simp [ht0])] at hwfl
          cases hpay : l.payload with
          | ethReceived f a =>
              rw [hpay] at hwfl
              simp at hwfl
          | erc20Received f a c =>
              rw [hpay] at hwfl
              simp at hwfl
          | tokenWithdrawn owner c v =>
              rw [hpay] at hwfl
              rw [Bool.and_eq_true, decide_eq_true_iff, decide_eq_true_iff] at hwfl
              rcases hwfl with ⟨htopeq, hbound⟩
              have hcomp := htopeq
              simp only [List.cons.injEq] at hcomp
              have ht1 : t1 = owner := hcomp.2.1
              simp only [encodeTopics, List.map, encodeAddressTopic, List.contains_cons,
                List.contains_nil, Bool.or_eq_true, beq_iff_eq, Bool.false_eq_true,
                or_false] at hcontains
              rw [htopeq]
              rcases hcontains with h | h
              · exfalso
                have howner : owner = TokenWithdrawnTopic := ht1.symm.trans h
                have hlt : owner < TokenWithdrawnTopic :=
                  Nat.lt_of_lt_of_le hbound (Nat.le_add_right ADDRESS_TOPIC_BOUND 3)
                rw [howner] at hlt
                exact Nat.lt_irrefl _ hlt
              · have howner : owner = st.address.localAddr := ht1.symm.trans h
                rw [howner]

/-- Claim C6: for each historical log query (`getETHReceivedLogsAsync`,
`getERC20ReceivedLogsAsync`, `getTokenWithdrawnLogsAsync`): an unset (0)
`fromBlock` defaults to the block of the gateway's deployment transaction; an
unset (0) `toBlock` defaults to the chain's current head block; the returned
list is sorted by descending block number (most recent first); and every
returned entry belongs to the caller's own address — through the decoded `from`
field for the received-logs queries, through the indexed owner topic for
`TokenWithdrawn` — with asset queries additionally matching the queried asset's
contract address; no event of another party is ever returned. -/
theorem logsAsync_defaults_sorted_owned (st : EthereumChainState)
    (assetAddress : Address) (fromBlock toBlock : Nat)
    (hwf : st.logs.all tokenWithdrawnLogWellFormed = true) :
    (getETHReceivedLogsAsync st 0 toBlock =
      getETHReceivedLogsAsync st (gatewayDeployBlock st) toBlock) ∧
    (getETHReceivedLogsAsync st fromBlock 0 =
      getETHReceivedLogsAsync st fromBlock st.headBlockNumber) ∧
    (getERC20ReceivedLogsAsync st assetAddress 0 toBlock =
      getERC20ReceivedLogsAsync st assetAddress (gatewayDeployBlock st) toBlock) ∧
    (getERC20ReceivedLogsAsync st assetAddress fromBlock 0 =
      getERC20ReceivedLogsAsync st assetAddress fromBlock st.headBlockNumber) ∧
    (getTokenWithdrawnLogsAsync st assetAddress 0 toBlock =
      getTokenWithdrawnLogsAsync st assetAddress (gatewayDeployBlock st) toBlock) ∧
    (getTokenWithdrawnLogsAsync st assetAddress fromBlock 0 =
      getTokenWithdrawnLogsAsync st assetAddress fromBlock st.headBlockNumber) ∧
    (getETHReceivedLogsAsync st fromBlock toBlock).Pairwise
      (fun d1 d2 => d2.log.blockNumber ≤ d1.log.blockNumber) ∧
    (getERC20ReceivedLogsAsync st assetAddress fromBlock toBlock).Pairwise
      (fun d1 d2 => d2.log.blockNumber ≤ d1.log.blockNumber) ∧
    (getTokenWithdrawnLogsAsync st assetAddress fromBlock toBlock).Pairwise
      (fun d1 d2 => d2.log.blockNumber ≤ d1.log.blockNumber) ∧
    (∀ d ∈ getETHReceivedLogsAsync st fromBlock toBlock,
      Address.createEthereumAddress d.fromAddr = st.address) ∧
    (∀ d ∈ getERC20ReceivedLogsAsync st assetAddress fromBlock toBlock,
      Address.createEthereumAddress d.fromAddr = st.address ∧
      Address.createEthereumAddress d.contractAddress = assetAddress) ∧
    (∀ d ∈ getTokenWithdrawnLogsAsync st assetAddress fromBlock toBlock,
      d.log.topics = [TokenWithdrawnTopic, encodeAddressTopic st.address.localAddr] ∧
      Address.createEthereumAddress d.contractAddress = assetAddress) := by
  refine ⟨?_, ?_, ?_, ?_, ?_, ?_, ?_, ?_, ?_, ?_, ?_, ?_⟩
  · simp [getETHReceivedLogsAsync]
  · simp [getETHReceivedLogsAsync]
  · simp [getERC20ReceivedLogsAsync]
  · simp [getERC20ReceivedLogsAsync]
  · simp [getTokenWithdrawnLogsAsync]
  · simp [getTokenWithdrawnLogsAsync]
  · simp only [getETHReceivedLogsAsync]
    exact sorted_map_filter _ decodeETHReceived (fun d => d.log.blockNumber)
      (fun l => by simp only [decodeETHReceived_log]) _
  · simp only [getERC20ReceivedLogsAsync]
    exact sorted_map_filter _ decodeERC20Received (fun d => d.log.blockNumber)
      (fun l => by simp only [decodeERC20Received_log]) _
  · simp only [getTokenWithdrawnLogsAsync]
    exact sorted_map_filter _ decodeTokenWithdrawn (fun d => d.log.blockNumber)
      (fun l => by simp only [decodeTokenWithdrawn_log]) _
  · intro d hd
    simp only [getETHReceivedLogsAsync, List.mem_filter] at hd
    exact (Address.equals_iff _ _).mp hd.2
  · intro d hd
    simp only [getERC20ReceivedLogsAsync, List.mem_filter, Bool.and_eq_true] at hd
    exact ⟨(Address.equals_iff _ _).mp hd.2.1, (Address.equals_iff _ _).mp hd.2.2⟩
  · exact tokenWithdrawn_entries_owned st assetAddress fromBlock toBlock hwf

/-- A small concrete chain state instantiating the log-query theorem: the
caller owns local address 5; the gateway at address 100 was deployed in block
10; the head is block 50; the chain holds one `ETHReceived` log and two
`TokenWithdrawn` logs, one for the caller and one for another owner. -/
def sampleLogChainState : EthereumChainState :=
  { address := Address.createEthereumAddress 5,
    gatewayAddress := 100,
    gatewayDeployTransactionBlockNumber := some 10,
    headBlockNumber := 50,
    logs := [
      ⟨100, [ETHReceivedTopic], 20, LogPayload.ethReceived 5 1000⟩,
      ⟨100, [TokenWithdrawnTopic, encodeAddressTopic 5], 30,
        LogPayload.tokenWithdrawn 5 9 500⟩,
      ⟨100, [TokenWithdrawnTopic, encodeAddressTopic 6], 40,
        LogPayload.tokenWithdrawn 6 9 700⟩] }

/-- Concrete run of claim C6's theorem on `sampleLogChainState`, discharging its
well-formedness hypothesis by evaluation: the `fromBlock` default equation and
the descending sortedness of the withdrawn-token query. -/
theorem logsAsync_defaults_sorted_owned_witness :
    (getETHReceivedLogsAsync sampleLogChainState 0 0 =
      getETHReceivedLogsAsync sampleLogChainState
        (gatewayDeployBlock sampleLogChainState) 0) ∧
    (getTokenWithdrawnLogsAsync sampleLogChainState
        (Address.createEthereumAddress 9) 0 0).Pairwise
      (fun d1 d2 => d2.log.blockNumber ≤ d1.log.blockNumber) :=
  ⟨(logsAsync_defaults_sorted_owned sampleLogChainState
      (Address.createEthereumAddress 9) 0 0 (by decide)).1,
    (logsAsync_defaults_sorted_owned sampleLogChainState
      (Address.createEthereumAddress 9) 0 0 (by decide)).2.2.2.2.2.2.2.2.1⟩

/-- Modelled from the spec/collaborator: loom-js `soliditySha3` over two
ABI-typed `address` values (src passes each contract's hex string without its
"0x", i.e. its 20-byte value). The hash is abstract, represented injectively by
its typed argument pair. -/
inductive SolidityHash
  | addressPair (first second : Nat)
deriving DecidableEq, Repr

/-- `soliditySha3({type: "address", value: a}, {type: "address", value: b})`. -/
def soliditySha3 (firstAddress secondAddress : Nat) : SolidityHash :=
  SolidityHash.addressPair firstAddress secondAddress

/-- Modelled from the spec: the key/signing collaborator "produces a signature
over an arbitrary message/hash" (`new EthersSigner(ethereum.signer)` followed by
`signAsync(hash)`). A signature is abstract, represented by the signing account
and the signed hash. -/
structure EthersSignature where
  signerAddress : Address
  message : SolidityHash
deriving DecidableEq, Repr

/-- `EthersSigner.signAsync`. -/
def signAsync (signerAddress : Address) (h : SolidityHash) : EthersSignature :=
  ⟨signerAddress, h⟩

/-- The request `Loom.mapContracts` submits to
`transferGateway.addContractMappingAsync`. The deployment transaction hash
travels as its byte string (`Buffer.from(ethereumContractTxHash.slice(2),
"hex")`); hex parsing is display formatting, so the bytes stand in directly. -/
structure ContractMappingRequest where
  foreignContract : Address
  localContract : Address
  foreignContractCreatorSig : EthersSignature
  foreignContractCreatorTxHash : List Nat
deriving DecidableEq, Repr

/-- `Loom.mapContracts` (src/chains/Ethereum.ts lines 503-523): hash the
Ethereum-side and the Loom-side contract addresses, in that order, sign the
hash with the Ethereum chain's signer, and submit the mapping request carrying
the two contracts, the creator signature and the deployment transaction hash
bytes. -/
def mapContracts (ethereumSignerAddress : Address) (ethereumContract : Address)
    (ethereumContractTxHash : List Nat) (loomContract : Address) :
    ContractMappingRequest :=
  let hash := soliditySha3 ethereumContract.localAddr loomContract.localAddr
  let foreignContractCreatorSig := signAsync ethereumSignerAddress hash
  { foreignContract := ethereumContract,
    localContract := loomContract,
    foreignContractCreatorSig := foreignContractCreatorSig,
    foreignContractCreatorTxHash := ethereumContractTxHash }

/-- The creator proof as the spec words it: the primary-chain signer's signature
over the hash computed from the two contract addresses, primary-side contract
first, secondary-side contract second. -/
def creatorProofSpec (primarySignerAddress primaryContract secondaryContract : Address) :
    EthersSignature :=
  signAsync primarySignerAddress
    (soliditySha3 primaryContract.localAddr secondaryContract.localAddr)

/-- Claim C7: for every pair of contract addresses, the contract-mapping request
submitted by `mapContracts` carries a creator proof equal to the primary-chain
(Ethereum) signer's signature over the hash computed from exactly the two
contract addresses — the primary-side contract address first, the
secondary-side contract address second — and carries the primary-side
deployment transaction hash alongside the two contracts. -/
theorem mapContracts_creator_proof (ethereumSignerAddress ethereumContract
    loomContract : Address) (ethereumContractTxHash : List Nat) :
    (mapContracts ethereumSignerAddress ethereumContract ethereumContractTxHash
        loomContract).foreignContractCreatorSig =
      creatorProofSpec ethereumSignerAddress ethereumContract loomContract ∧
    (mapContracts ethereumSignerAddress ethereumContract ethereumContractTxHash
        loomContract).foreignContractCreatorTxHash = ethereumContractTxHash ∧
    (mapContracts ethereumSignerAddress ethereumContract ethereumContractTxHash
        loomContract).foreignContract = ethereumContract ∧
    (mapContracts ethereumSignerAddress ethereumContract ethereumContractTxHash
        loomContract).localContract = loomContract :=
  ⟨rfl, rfl, rfl, rfl⟩

/-- An on-chain mutating call that a Loom-side synthetic transaction handle
performs when its `wait()` is invoked: an EthCoin transfer or approval, or a
gateway withdrawal. -/
inductive ChainCall
  | ethCoinTransfer (toAddress : Address) (amount : Nat)
  | ethCoinApprove (spender : Address) (amount : Nat)
  | gatewayWithdrawETH (amount : Nat) (ethereumGateway : Address)
  | gatewayWithdrawERC20 (amount : Nat) (assetAddress : Address)
deriving DecidableEq, Repr

/-- The `ethers.providers.TransactionResponse` object these methods build,
together with the effect model: `waitCalls` lists the on-chain calls performed
when the caller invokes the handle's `wait()` (empty = wait resolves
immediately). `hash` is optional because `Ethereum.approveETHAsync`'s literal
has no hash field. The source's `from` and `to` are Lean keywords; they are
`fromAddr` and `toAddr` here. -/
structure TransactionResponse where
  hash : Option String
  toAddr : Nat
  fromAddr : Nat
  confirmations : Nat
  nonce : Nat
  gasLimit : Nat
  gasPrice : Nat
  data : String
  value : Nat
  chainId : Nat
  waitCalls : List ChainCall
deriving DecidableEq, Repr

/-- The parts of the `Ethereum` chain object that `approveETHAsync` touches: the
caller's local address and the current network's numeric chain id. -/
structure EthereumClientState where
  callerLocal : Nat
  chainId : Nat
deriving DecidableEq, Repr

/-- `Ethereum.approveETHAsync` (src/chains/Ethereum.ts lines 127-146): approving
the native asset requires no transaction, so the method resolves immediately
with a synthetic response — zero value, zero gas, data "0x", recipient the zero
address, no hash — whose `wait()` resolves immediately performing no chain
call. The pair's second component lists the on-chain calls submitted eagerly:
none. The `spender` and `amount` arguments are ignored by the source. -/
def Ethereum.approveETHAsync (st : EthereumClientState) (_spender : Nat)
    (_amount : Nat) : TransactionResponse × List ChainCall :=
  ({ hash := none, toAddr := ZERO_ADDRESS, fromAddr := st.callerLocal,
     confirmations := 0, nonce := 0, gasLimit := 0, gasPrice := 0, data := "0x",
     value := 0, chainId := st.chainId, waitCalls := [] }, [])

/-- The parts of the `Loom` chain object its synthetic-handle methods touch: the
caller's local address, the network's numeric chain id, the EthCoin contract's
address (`getETHAsync`) and the Loom gateway contract's address
(`getTransferGatewayAsync`); resolving these contract bindings submits no
transaction. -/
structure LoomChainClientState where
  callerLocal : Nat
  chainId : Nat
  ethCoinAddress : Address
  gatewayAddress : Address
deriving DecidableEq, Repr

/-- `Loom.transferETHAsync` (src/chains/Ethereum.ts lines 575-598): resolve
immediately with a synthetic handle (hash "0x02", zero gas, `value` = amount);
the EthCoin transfer itself runs only inside `wait()`. -/
def Loom.transferETHAsync (st : LoomChainClientState) (toAddress : Address)
    (amount : Nat) : TransactionResponse × List ChainCall :=
  ({ hash := some "0x02", toAddr := st.ethCoinAddress.localAddr,
     fromAddr := st.callerLocal, confirmations := 0, nonce := 0, gasLimit := 0,
     gasPrice := 0, data := "0x", value := amount, chainId := st.chainId,
     waitCalls := [ChainCall.ethCoinTransfer toAddress amount] }, [])

/-- `Loom.approveETHAsync` (src/chains/Ethereum.ts lines 600-623): as the
transfer, with zero value; the EthCoin approval runs only inside `wait()`. -/
def Loom.approveETHAsync (st : LoomChainClientState) (spender : Address)
    (amount : Nat) : TransactionResponse × List ChainCall :=
  ({ hash := some "0x02", toAddr := st.ethCoinAddress.localAddr,
     fromAddr := st.callerLocal, confirmations := 0, nonce := 0, gasLimit := 0,
     gasPrice := 0, data := "0x", value := 0, chainId := st.chainId,
     waitCalls := [ChainCall.ethCoinApprove spender amount] }, [])

/-- `Loom.withdrawETHAsync` (src/chains/Ethereum.ts lines 656-684): resolve
immediately with a synthetic handle; the gateway withdrawal (toward the
Ethereum gateway's address) runs only inside `wait()`. -/
def Loom.withdrawETHAsync (st : LoomChainClientState) (amount : Nat)
    (ethereumGateway : Nat) : TransactionResponse × List ChainCall :=
  ({ hash := some "0x02", toAddr := st.gatewayAddress.localAddr,
     fromAddr := st.callerLocal, confirmations := 0, nonce := 0, gasLimit := 0,
     gasPrice := 0, data := "0x", value := 0, chainId := st.chainId,
     waitCalls := [ChainCall.gatewayWithdrawETH amount
       (Address.createEthereumAddress ethereumGateway)] }, [])

/-- `Loom.withdrawERC20Async` (src/chains/Ethereum.ts lines 694-717): resolve
immediately with a synthetic handle; the gateway ERC20 withdrawal runs only
inside `wait()`. -/
def Loom.withdrawERC20Async (st : LoomChainClientState) (assetAddress : Address)
    (amount : Nat) : TransactionResponse × List ChainCall :=
  ({ hash := some "0x02", toAddr := st.gatewayAddress.localAddr,
     fromAddr := st.callerLocal, confirmations := 0, nonce := 0, gasLimit := 0,
     gasPrice := 0, data := "0x", value := 0, chainId := st.chainId,
     waitCalls := [ChainCall.gatewayWithdrawERC20 amount assetAddress] }, [])

/-- Claim C9: for every spender and amount, `Ethereum.approveETHAsync` performs
no chain interaction at all: it always succeeds, submits nothing eagerly,
returns a synthetic response with zero value and zero gas to the zero address,
and its `wait()` resolves immediately performing no chain call. -/
theorem ethereum_approveETH_is_noop (st : EthereumClientState)
    (spender amount : Nat) :
    (Ethereum.approveETHAsync st spender amount).2 = [] ∧
    (Ethereum.approveETHAsync st spender amount).1.waitCalls = [] ∧
    (Ethereum.approveETHAsync st spender amount).1.value = 0 ∧
    (Ethereum.approveETHAsync st spender amount).1.gasLimit = 0 ∧
    (Ethereum.approveETHAsync st spender amount).1.gasPrice = 0 ∧
    (Ethereum.approveETHAsync st spender amount).1.toAddr = ZERO_ADDRESS ∧
    (Ethereum.approveETHAsync st spender amount).1.confirmations = 0 ∧
    (Ethereum.approveETHAsync st spender amount).1.hash = none :=
  ⟨rfl, rfl, rfl, rfl, rfl, rfl, rfl, rfl⟩

/-- Claim C10: on the Loom side, `withdrawETHAsync`, `withdrawERC20Async`,
`transferETHAsync` and `approveETHAsync` resolve immediately with a synthetic
handle whose fields are constants (hash "0x02", nonce 0, confirmations 0, zero
gas) and submit nothing on-chain at that point; the single actual chain call of
each is performed only when the handle's `wait()` is invoked, so a caller that
never calls `wait()` causes no on-chain effect. -/
theorem loom_synthetic_handles_defer_chain_calls (st : LoomChainClientState)
    (toAddress spender assetAddress : Address) (amount : Nat) (ethereumGateway : Nat) :
    ((Loom.withdrawETHAsync st amount ethereumGateway).2 = [] ∧
      (Loom.withdrawETHAsync st amount ethereumGateway).1.hash = some "0x02" ∧
      (Loom.withdrawETHAsync st amount ethereumGateway).1.nonce = 0 ∧
      (Loom.withdrawETHAsync st amount ethereumGateway).1.confirmations = 0 ∧
      (Loom.withdrawETHAsync st amount ethereumGateway).1.gasLimit = 0 ∧
      (Loom.withdrawETHAsync st amount ethereumGateway).1.gasPrice = 0 ∧
      (Loom.withdrawETHAsync st amount ethereumGateway).1.waitCalls =
        [ChainCall.gatewayWithdrawETH amount
          (Address.createEthereumAddress ethereumGateway)]) ∧
    ((Loom.withdrawERC20Async st assetAddress amount).2 = [] ∧
      (Loom.withdrawERC20Async st assetAddress amount).1.hash = some "0x02" ∧
      (Loom.withdrawERC20Async st assetAddress amount).1.nonce = 0 ∧
      (Loom.withdrawERC20Async st assetAddress amount).1.confirmations = 0 ∧
      (Loom.withdrawERC20Async st assetAddress amount).1.gasLimit = 0 ∧
      (Loom.withdrawERC20Async st assetAddress amount).1.gasPrice = 0 ∧
      (Loom.withdrawERC20Async st assetAddress amount).1.waitCalls =
        [ChainCall.gatewayWithdrawERC20 amount assetAddress]) ∧
    ((Loom.transferETHAsync st toAddress amount).2 = [] ∧
      (Loom.transferETHAsync st toAddress amount).1.hash = some "0x02" ∧
      (Loom.transferETHAsync st toAddress amount).1.nonce = 0 ∧
      (Loom.transferETHAsync st toAddress amount).1.confirmations = 0 ∧
      (Loom.transferETHAsync st toAddress amount).1.gasLimit = 0 ∧
      (Loom.transferETHAsync st toAddress amount).1.gasPrice = 0 ∧
      (Loom.transferETHAsync st toAddress amount).1.waitCalls =
        [ChainCall.ethCoinTransfer toAddress amount]) ∧
    ((Loom.approveETHAsync st spender amount).2 = [] ∧
      (Loom.approveETHAsync st spender amount).1.hash = some "0x02" ∧
      (Loom.approveETHAsync st spender amount).1.nonce = 0 ∧
      (Loom.approveETHAsync st spender amount).1.confirmations = 0 ∧
      (Loom.approveETHAsync st spender amount).1.gasLimit = 0 ∧
      (Loom.approveETHAsync st spender amount).1.gasPrice = 0 ∧
      (Loom.approveETHAsync st spender amount).1.waitCalls =
        [ChainCall.ethCoinApprove spender amount]) := by
  refine ⟨⟨?_, ?_, ?_, ?_, ?_, ?_, ?_⟩, ⟨?_, ?_, ?_, ?_, ?_, ?_, ?_⟩,
    ⟨?_, ?_, ?_, ?_, ?_, ?_, ?_⟩, ⟨?_, ?_, ?_, ?_, ?_, ?_, ?_⟩⟩ <;> rfl
